import Mathlib

/-!
Verification of the import-old-projects tool: a shallow embedding of the
snapshot aggregator (src/status.ts, src/unnamed/part_000), the import state
machine (src/import.ts, src/index.ts importRepo; src/unnamed/part_002
importProject), the batch runner and CLI entry (src/unnamed/part_001,
src/index.ts main), and the persisted snapshot JSON shape.
-/

namespace ImportOldProjects

/-! ## Data model (from src/src/types.ts and the response shapes used) -/

/-- Account record as used for stargazers and watchers (login, html_url). -/
structure Account where
  login : String
  html_url : String
  deriving DecidableEq, Repr

/-- Fork record; the source only reads full_name and html_url. -/
structure Fork where
  full_name : String
  html_url : String
  deriving DecidableEq, Repr

/-- Issue comment record (user login and body). -/
structure Comment where
  user_login : String
  body : String
  deriving DecidableEq, Repr

/-- Issue record with the fields the source reads. -/
structure Issue where
  number : Nat
  title : String
  html_url : String
  user_login : String
  body : Option String
  state : String
  deriving DecidableEq, Repr

/-- Repository metadata fields read by the snapshot aggregator. -/
structure RepoMeta where
  full_name : String
  description : Option String
  homepage : Option String
  default_branch : String
  fork : Bool
  has_issues : Bool
  has_projects : Bool
  has_wiki : Bool
  has_pages : Bool
  deriving DecidableEq, Repr

/-- GitHub Pages configuration record. -/
structure PagesRec where
  html_url : String
  cname : Option String
  source_branch : String
  source_directory : Option String
  deriving DecidableEq, Repr

/-- ProjectInfo snapshot (src/src/types.ts). issueComments is the JS object
keyed by the string form of the issue number, as JS object keys are strings. -/
structure ProjectInfo where
  repo : RepoMeta
  stargazers : List Account
  watchers : List Account
  topics : List String
  forks : List Fork
  issues : List Issue
  issueComments : List (String × List Comment)
  pages : Option PagesRec
  deriving DecidableEq, Repr

/-! ## Snapshot aggregator pure steps (src/status.ts getProjectInfo,
identical in src/unnamed/part_000 and the final src/index.ts variant) -/

/-- Stargazer self-exclusion filter: keep s iff s.login differs from both
"patlillis" and "patlillis-xx". -/
def filterStargazers (stargazers : List Account) : List Account :=
  stargazers.filter fun s => !(s.login == "patlillis") && !(s.login == "patlillis-xx")

/-- Watcher self-exclusion filter: keep w iff w.login differs from both
"patlillis" and "patlillis-xx". -/
def filterWatchers (watchers : List Account) : List Account :=
  watchers.filter fun w => !(w.login == "patlillis") && !(w.login == "patlillis-xx")

/-- Fork exclusion filter: keep f iff f.full_name differs from
"patlillis/" followed by the repo name. -/
def filterForks (repo : String) (forks : List Fork) : List Fork :=
  forks.filter fun f => !(f.full_name == "patlillis/" ++ repo)

/-- The issueComments object: for every issue (in order) the fetched comment
list is stored under the key issue.number (a string key in the JS object);
no emptiness check is made. listComments abstracts api.issues.listComments. -/
def buildIssueComments (issues : List Issue) (listComments : Nat → List Comment) :
    List (String × List Comment) :=
  issues.map fun i => (toString i.number, listComments i.number)

/-- Reading comments for an issue, as done when printing:
info.issueComments[issue.number] ?? []. -/
def lookupIssueComments (m : List (String × List Comment)) (key : String) : List Comment :=
  (m.lookup key).getD []

/-! ## Import state machine (src/import.ts and last src/index.ts variant:
importRepo; src/unnamed/part_002: importProject) -/

def IMPORT_IN_PROGRESS_STATUSES : List String :=
  ["detecting", "importing", "mapping", "pushing"]

def IMPORT_ERROR_STATUSES : List String :=
  ["auth_failed", "error", "detection_needs_auth", "detection_found_nothing",
   "detection_found_multiple"]

def IMPORT_COMPLETE_STATUS : String := "complete"

def IMPORT_POLL_INTERVAL : Nat := 200

/-- Source repository metadata fields read by importRepo / importProject.
topics is optional because the GitHub response may omit the field. -/
structure RepoInfo where
  full_name : String
  html_url : String
  default_branch : String
  description : String
  homepage : String
  has_issues : Bool
  has_projects : Bool
  has_wiki : Bool
  has_pages : Bool
  topics : Option (List String)
  deriving DecidableEq, Repr

/-- The slice of a ProjectInfo that importProject (part_002) reads: the repo
record plus the already-defaulted topics list built by getProjectInfo. -/
structure ProjectInfoLite where
  repo : RepoInfo
  topics : List String
  deriving DecidableEq, Repr

/-- Pages configuration returned by api.repos.getPages in importRepo. -/
structure PagesInfo where
  branch : String
  directory : Option String
  cname : Option String
  deriving DecidableEq, Repr

/-- Network calls issued by the import flows. -/
inductive Call where
  | reposGet (owner repo : String)
  | getProjectInfoCall (owner repo : String)
  | createForAuthenticatedUser (name : String)
  | startImport (owner repo vcsUrl : String)
  | getImportStatus (owner repo : String)
  | reposUpdateSettings (owner repo default_branch description homepage : String)
      (has_issues has_projects has_wiki : Bool)
  | replaceAllTopics (owner repo : String) (names : List String)
  | getPages (owner repo : String)
  | createPagesSite (owner repo branch : String) (path : Option String)
  | updatePagesCname (owner repo cname : String)
  | setPrivate (owner repo : String)
  | reposDelete (owner repo : String)
  deriving DecidableEq, Repr

/-- Reconciliation calls in the sense of the spec: the settings update, the
topic replacement, the Pages creation steps and the set-private step. -/
def isReconCall : Call → Bool
  | .reposUpdateSettings _ _ _ _ _ _ _ _ => true
  | .replaceAllTopics _ _ _ => true
  | .createPagesSite _ _ _ _ => true
  | .updatePagesCname _ _ _ => true
  | .setPrivate _ _ => true
  | _ => false

/-- Is this call a replace-topics call? -/
def isReplaceTopics : Call → Bool
  | .replaceAllTopics _ _ _ => true
  | _ => false

/-- The poll loop shared by both import variants: while the status is one of
the in-progress statuses, sleep IMPORT_POLL_INTERVAL and poll again.  The
statuses returned by successive getImportStatus calls are the list polls;
the result counts the sleep-then-repoll cycles performed and gives the
terminal status.  none models the loop spinning forever (statuses exhausted
while still in progress). -/
def pollLoop (status : String) (polls : List String) : Option (Nat × String) :=
  if IMPORT_IN_PROGRESS_STATUSES.contains status then
    match polls with
    | [] => none
    | p :: rest =>
      match pollLoop p rest with
      | none => none
      | some (n, final) => some (n + 1, final)
  else some (0, status)

/-- Calls issued by importRepo before and during the poll loop: fetch source
repo, create the empty clone, start the import, then one getImportStatus per
poll cycle. -/
def importRepoPre (projectName : String) (repo : RepoInfo) (cycles : Nat) : List Call :=
  [Call.reposGet "patlillis" projectName,
   Call.createForAuthenticatedUser (projectName ++ "-clone"),
   Call.startImport "patlillis" (projectName ++ "-clone") repo.html_url]
  ++ List.replicate cycles (Call.getImportStatus "patlillis" (projectName ++ "-clone"))

/-- Pages reconciliation calls in importRepo (getPages is called with the
source project name, createPagesSite with the clone, and the CNAME is copied
when present). -/
def importRepoPagesCalls (projectName cloneName : String) (pages : PagesInfo) : List Call :=
  [Call.getPages "patlillis" projectName,
   Call.createPagesSite "patlillis" cloneName pages.branch pages.directory]
  ++ (match pages.cname with
      | some c => [Call.updatePagesCname "patlillis" cloneName c]
      | none => [])

/-- The tail of importRepo after the poll loop (src/import.ts lines 104-150).
It runs regardless of the terminal status: settings update, then the topics
step, then the Pages step.  The topics guard reads repo.topics.length
directly, so when the topics field is absent the member access throws a
TypeError after the settings update: the second component records whether
the tail threw, the first lists the calls issued up to that point. -/
def importRepoTail (projectName : String) (repo : RepoInfo) (pages : PagesInfo) :
    List Call × Bool :=
  let cloneName := projectName ++ "-clone"
  let settings := Call.reposUpdateSettings "patlillis" cloneName
    repo.default_branch repo.description repo.homepage
    repo.has_issues repo.has_projects repo.has_wiki
  let topics := repo.topics.getD []
  match repo.topics with
  | none => ([settings], true)
  | some ts =>
    let topicCalls :=
      if ts.length > 0 then [Call.replaceAllTopics "patlillis" cloneName topics] else []
    let pagesCalls :=
      if repo.has_pages then importRepoPagesCalls projectName cloneName pages else []
    (settings :: (topicCalls ++ pagesCalls), false)

/-- The full importRepo run (src/import.ts, final src/index.ts variant):
poll until terminal, then run the tail whatever the terminal status is (the
error statuses are only logged).  Returns the cycle count, the calls issued
and whether the run threw; none if the poll loop never terminates. -/
def importRepoRun (projectName : String) (repo : RepoInfo) (pages : PagesInfo)
    (startStatus : String) (polls : List String) : Option (Nat × List Call × Bool) :=
  match pollLoop startStatus polls with
  | none => none
  | some (n, _final) =>
    let (tail, threw) := importRepoTail projectName repo pages
    some (n, importRepoPre projectName repo n ++ tail, threw)

/-- Calls issued by importProject before and during the poll loop
(src/unnamed/part_002): getProjectInfo on the source, create the clone,
start the import, then one getImportStatus per poll cycle. -/
def importProjectPre (projectName : String) (info : ProjectInfoLite) (cycles : Nat) :
    List Call :=
  [Call.getProjectInfoCall "patlillis-xx" projectName,
   Call.createForAuthenticatedUser (projectName ++ "-clone"),
   Call.startImport "patlillis" (projectName ++ "-clone") info.repo.html_url]
  ++ List.replicate cycles (Call.getImportStatus "patlillis" (projectName ++ "-clone"))

/-- Reconciliation tail of importProject (src/unnamed/part_002 lines
103-137): settings update, topic replacement when the defaulted topic list
is non-empty, then set the clone private.  There is no Pages step in this
variant. -/
def importProjectTail (projectName : String) (info : ProjectInfoLite) : List Call :=
  let cloneName := projectName ++ "-clone"
  let settings := Call.reposUpdateSettings "patlillis" cloneName
    info.repo.default_branch info.repo.description info.repo.homepage
    info.repo.has_issues info.repo.has_projects info.repo.has_wiki
  let topics := info.topics
  let topicCalls :=
    if topics.length > 0 then [Call.replaceAllTopics "patlillis" cloneName topics] else []
  settings :: (topicCalls ++ [Call.setPrivate "patlillis" cloneName])

/-- The full importProject run (src/unnamed/part_002): poll until terminal;
on complete fall through to reconciliation, on one of the error statuses
return immediately, on any other terminal status fall through as well
(only the error branch returns in the source). -/
def importProjectRun (projectName : String) (info : ProjectInfoLite)
    (startStatus : String) (polls : List String) : Option (Nat × List Call) :=
  match pollLoop startStatus polls with
  | none => none
  | some (n, final) =>
    let pre := importProjectPre projectName info n
    if final == IMPORT_COMPLETE_STATUS then
      some (n, pre ++ importProjectTail projectName info)
    else if IMPORT_ERROR_STATUSES.contains final then
      some (n, pre)
    else
      some (n, pre ++ importProjectTail projectName info)

/-! ## Batch runner (src/unnamed/part_001 main, src/index.ts main): each
name is processed in its own try/catch; a success is pushed onto the result
list, a failure is logged, and processing continues. -/

def runBatch {α : Type} (agg : String → Except String α) (names : List String) :
    List α × List String :=
  names.foldl
    (fun acc name =>
      match agg name with
      | .ok info => (acc.1 ++ [info], acc.2)
      | .error e => (acc.1, acc.2 ++ [e]))
    ([], [])

/-! ## CLI action check (src/unnamed/part_001 main lines 33-55) -/

def actionArgNames : List String :=
  ["--import", "--revert-import", "--status", "--write-status-file", "--read-status-file"]

/-- Observable effects of the entry point up to the first network call. -/
inductive MainEvent where
  | logError (msg : String)
  | readTokenFile
  | networkCall
  deriving DecidableEq, Repr

/-- The action-flag count computed by main:
(importArg ? 1 : 0) + (revertImportArg ? 1 : 0) + (statusArg ? 1 : 0)
 + (writeStatusFileArg ? 1 : 0) + (readStatusFileArg ? 1 : 0). -/
def argSum (argv : List String) : Nat :=
  (if argv.contains "--import" then 1 else 0)
  + (if argv.contains "--revert-import" then 1 else 0)
  + (if argv.contains "--status" then 1 else 0)
  + (if argv.contains "--write-status-file" then 1 else 0)
  + (if argv.contains "--read-status-file" then 1 else 0)

/-- Entry-point prefix of part_001 main: with zero actions or with more than
one action it logs a usage error and returns; otherwise it goes on to read
the token file (and only then contacts the network). -/
def mainArgCheck (argv : List String) : List MainEvent :=
  if argSum argv = 0 then
    [MainEvent.logError
      "Error: no action specfied. Use --import, --revert-import, --status, --write-status-file, or --read-status-file"]
  else if argSum argv > 1 then
    [MainEvent.logError
      "Error: multiple actions specified. Use --import, --revert-import, --status, --write-status-file, or --read-status-file"]
  else
    [MainEvent.readTokenFile, MainEvent.networkCall]

/-! ## Persisted snapshot file -/

/-- Modelled from the spec: the JSON value space of the snapshot file.  The
serialization itself (fs-extra writeJson / readJson in part_001) is outside
src, so JSON documents are modelled explicitly; numbers only ever hold issue
numbers here. -/
inductive Json where
  | str (s : String)
  | num (n : Nat)
  | bool (b : Bool)
  | null
  | arr (elems : List Json)
  | obj (fields : List (String × Json))

/-- Decode every element of a list, failing if any element fails. -/
def mapMOpt {β α : Type} (dec : β → Option α) : List β → Option (List α)
  | [] => some []
  | j :: js =>
    match dec j, mapMOpt dec js with
    | some a, some as => some (a :: as)
    | _, _ => none

def encodeOptStr : Option String → Json
  | none => Json.null
  | some s => Json.str s

def decodeOptStr : Json → Option (Option String)
  | Json.null => some none
  | Json.str s => some (some s)
  | _ => none

def decodeStr : Json → Option String
  | Json.str s => some s
  | _ => none

def encodeAccount (a : Account) : Json :=
  Json.obj [("login", Json.str a.login), ("html_url", Json.str a.html_url)]

def decodeAccount : Json → Option Account
  | Json.obj [("login", Json.str l), ("html_url", Json.str h)] => some ⟨l, h⟩
  | _ => none

def encodeFork (f : Fork) : Json :=
  Json.obj [("full_name", Json.str f.full_name), ("html_url", Json.str f.html_url)]

def decodeFork : Json → Option Fork
  | Json.obj [("full_name", Json.str n), ("html_url", Json.str h)] => some ⟨n, h⟩
  | _ => none

def encodeComment (c : Comment) : Json :=
  Json.obj [("user_login", Json.str c.user_login), ("body", Json.str c.body)]

def decodeComment : Json → Option Comment
  | Json.obj [("user_login", Json.str u), ("body", Json.str b)] => some ⟨u, b⟩
  | _ => none

def encodeIssue (i : Issue) : Json :=
  Json.obj [("number", Json.num i.number), ("title", Json.str i.title),
    ("html_url", Json.str i.html_url), ("user_login", Json.str i.user_login),
    ("body", encodeOptStr i.body), ("state", Json.str i.state)]

def decodeIssue : Json → Option Issue
  | Json.obj [("number", Json.num n), ("title", Json.str t),
      ("html_url", Json.str h), ("user_login", Json.str u),
      ("body", jb), ("state", Json.str s)] =>
    match decodeOptStr jb with
    | some b => some ⟨n, t, h, u, b, s⟩
    | none => none
  | _ => none

def encodeRepoMeta (r : RepoMeta) : Json :=
  Json.obj [("full_name", Json.str r.full_name),
    ("description", encodeOptStr r.description),
    ("homepage", encodeOptStr r.homepage),
    ("default_branch", Json.str r.default_branch),
    ("fork", Json.bool r.fork),
    ("has_issues", Json.bool r.has_issues),
    ("has_projects", Json.bool r.has_projects),
    ("has_wiki", Json.bool r.has_wiki),
    ("has_pages", Json.bool r.has_pages)]

def decodeRepoMeta : Json → Option RepoMeta
  | Json.obj [("full_name", Json.str fn),
      ("description", jd), ("homepage", jh),
      ("default_branch", Json.str db),
      ("fork", Json.bool fk),
      ("has_issues", Json.bool hi),
      ("has_projects", Json.bool hp),
      ("has_wiki", Json.bool hw),
      ("has_pages", Json.bool hg)] =>
    match decodeOptStr jd, decodeOptStr jh with
    | some d, some h => some ⟨fn, d, h, db, fk, hi, hp, hw, hg⟩
    | _, _ => none
  | _ => none

def encodePagesRec (p : PagesRec) : Json :=
  Json.obj [("html_url", Json.str p.html_url),
    ("cname", encodeOptStr p.cname),
    ("source_branch", Json.str p.source_branch),
    ("source_directory", encodeOptStr p.source_directory)]

def decodePagesRec : Json → Option PagesRec
  | Json.obj [("html_url", Json.str h), ("cname", jc),
      ("source_branch", Json.str sb), ("source_directory", jd)] =>
    match decodeOptStr jc, decodeOptStr jd with
    | some c, some d => some ⟨h, c, sb, d⟩
    | _, _ => none
  | _ => none

def encodeOptPages : Option PagesRec → Json
  | none => Json.null
  | some p => encodePagesRec p

def decodeOptPages : Json → Option (Option PagesRec)
  | Json.null => some none
  | j =>
    match decodePagesRec j with
    | some p => some (some p)
    | none => none

/-- One issueComments entry: the key is kept verbatim, the value is the
encoded comment array. -/
def decodeCommentEntry (e : String × Json) : Option (String × List Comment) :=
  match e.2 with
  | Json.arr js =>
    match mapMOpt decodeComment js with
    | some cs => some (e.1, cs)
    | none => none
  | _ => none

def encodeProjectInfo (p : ProjectInfo) : Json :=
  Json.obj [("repo", encodeRepoMeta p.repo),
    ("stargazers", Json.arr (p.stargazers.map encodeAccount)),
    ("watchers", Json.arr (p.watchers.map encodeAccount)),
    ("topics", Json.arr (p.topics.map Json.str)),
    ("forks", Json.arr (p.forks.map encodeFork)),
    ("issues", Json.arr (p.issues.map encodeIssue)),
    ("issueComments", Json.obj (p.issueComments.map fun e =>
      (e.1, Json.arr (e.2.map encodeComment)))),
    ("pages", encodeOptPages p.pages)]

def decodeProjectInfo : Json → Option ProjectInfo
  | Json.obj [("repo", jr),
      ("stargazers", Json.arr js), ("watchers", Json.arr jw),
      ("topics", Json.arr jt), ("forks", Json.arr jf),
      ("issues", Json.arr ji), ("issueComments", Json.obj jc),
      ("pages", jp)] =>
    match decodeRepoMeta jr, mapMOpt decodeAccount js, mapMOpt decodeAccount jw,
        mapMOpt decodeStr jt, mapMOpt decodeFork jf, mapMOpt decodeIssue ji,
        mapMOpt decodeCommentEntry jc, decodeOptPages jp with
    | some repo, some stars, some watchers, some topics, some forks, some issues,
        some comments, some pages =>
      some ⟨repo, stars, watchers, topics, forks, issues, comments, pages⟩
    | _, _, _, _, _, _, _, _ => none
  | _ => none

/-- The snapshot file: a JSON document with a projects array
(part_001 writeJson of a projects field holding the ProjectInfo list). -/
def encodeSnapshotFile (ps : List ProjectInfo) : Json :=
  Json.obj [("projects", Json.arr (ps.map encodeProjectInfo))]

/-- Reading the snapshot file back (part_001 readJson followed by use of the
projects array). -/
def decodeSnapshotFile : Json → Option (List ProjectInfo)
  | Json.obj [("projects", Json.arr js)] => mapMOpt decodeProjectInfo js
  | _ => none

/-- Numeric value of a decimal digit character (the characters produced by
Nat.digitChar for remainders below ten). -/
def digitVal (c : Char) : Nat := c.toNat - 48

/-- Value of a most-significant-first decimal digit string; a left inverse
of the rendering of issue-number keys used by the issueComments object. -/
def valOfDigits (l : List Char) : Nat := l.foldl (fun a c => a * 10 + digitVal c) 0

/-! ## Theorems -/

/-- Counting occurrences after the login self-exclusion filter used for both
stargazers and watchers. -/
theorem count_filter_login (l : List Account) (a : Account) :
    (l.filter fun s => !(s.login == "patlillis") && !(s.login == "patlillis-xx")).count a =
      if a.login ≠ "patlillis" ∧ a.login ≠ "patlillis-xx" then l.count a else 0 := by
  by_cases h : a.login ≠ "patlillis" ∧ a.login ≠ "patlillis-xx"
  · rw [if_pos h]
    exact List.count_filter (by simp [h.1, h.2])
  · rw [if_neg h]
    rw [List.count_eq_zero]
    intro hm
    rw [List.mem_filter] at hm
    have h2 := hm.2
    simp only [Bool.and_eq_true, Bool.not_eq_true', beq_eq_false_iff_ne, ne_eq] at h2
    exact h ⟨h2.1, h2.2⟩

/-- Claim C6: the self-exclusion filter on stargazers and on watchers
removes exactly the elements whose login is "patlillis" or "patlillis-xx",
keeps every other element with its multiplicity, and preserves the relative
order of the kept elements (the result is a sublist of the input). -/
theorem self_exclusion_filter_exact (l : List Account) :
    ((filterStargazers l).Sublist l ∧
      ∀ a : Account, (filterStargazers l).count a =
        if a.login ≠ "patlillis" ∧ a.login ≠ "patlillis-xx" then l.count a else 0) ∧
    ((filterWatchers l).Sublist l ∧
      ∀ a : Account, (filterWatchers l).count a =
        if a.login ≠ "patlillis" ∧ a.login ≠ "patlillis-xx" then l.count a else 0) := by
  unfold filterStargazers filterWatchers
  exact ⟨⟨List.filter_sublist l, fun a => count_filter_login l a⟩,
    ⟨List.filter_sublist l, fun a => count_filter_login l a⟩⟩

/-- Under distinct full names, the fork filter drops at most one element. -/
theorem filterForks_length (repo : String) (l : List Fork)
    (h : (l.map Fork.full_name).Nodup) :
    l.length ≤ (filterForks repo l).length + 1 := by
  induction l with
  | nil => simp [filterForks]
  | cons f t ih =>
    rw [List.map_cons, List.nodup_cons] at h
    by_cases hf : f.full_name = "patlillis/" ++ repo
    · have ht : filterForks repo t = t := by
        apply List.filter_eq_self.mpr
        intro x hx
        have hne : x.full_name ≠ f.full_name := by
          intro he
          exact h.1 (he ▸ List.mem_map_of_mem Fork.full_name hx)
        simp only [Bool.not_eq_true', beq_eq_false_iff_ne, ne_eq]
        exact fun he => hne (he.trans hf.symm)
      have hdrop : filterForks repo (f :: t) = filterForks repo t := by
        simp [filterForks, List.filter_cons, hf]
      rw [hdrop, ht]
      simp
    · have hkeep : filterForks repo (f :: t) = f :: filterForks repo t := by
        simp [filterForks, List.filter_cons, hf]
      rw [hkeep]
      have := ih h.2
      simp only [List.length_cons]
      omega

/-- Claim C5: the fork-exclusion filter keeps exactly the forks whose full
name differs from patlillis/(repo name); when full names are pairwise
distinct, as in a fork list returned by the service, at most one entry is
removed. -/
theorem fork_filter_removes_at_most_one (repo : String) (l : List Fork)
    (h : (l.map Fork.full_name).Nodup) :
    (∀ f ∈ filterForks repo l, f.full_name ≠ "patlillis/" ++ repo) ∧
    (∀ f ∈ l, f.full_name ≠ "patlillis/" ++ repo → f ∈ filterForks repo l) ∧
    (filterForks repo l).Sublist l ∧
    l.length ≤ (filterForks repo l).length + 1 := by
  refine ⟨?_, ?_, ?_, filterForks_length repo l h⟩
  · intro f hf
    rw [filterForks, List.mem_filter] at hf
    have h2 := hf.2
    simpa using h2
  · intro f hf hne
    rw [filterForks, List.mem_filter]
    exact ⟨hf, by simpa using hne⟩
  · exact List.filter_sublist l

/-- Witness for claim C5 at a concrete fork list. -/
theorem fork_filter_removes_at_most_one_witness :
    (∀ f ∈ filterForks "r" [⟨"x/y", "u1"⟩, ⟨"patlillis/r", "u2"⟩, ⟨"z/w", "u3"⟩],
      f.full_name ≠ "patlillis/" ++ "r") ∧
    (∀ f ∈ ([⟨"x/y", "u1"⟩, ⟨"patlillis/r", "u2"⟩, ⟨"z/w", "u3"⟩] : List Fork),
      f.full_name ≠ "patlillis/" ++ "r" →
        f ∈ filterForks "r" [⟨"x/y", "u1"⟩, ⟨"patlillis/r", "u2"⟩, ⟨"z/w", "u3"⟩]) ∧
    (filterForks "r" [⟨"x/y", "u1"⟩, ⟨"patlillis/r", "u2"⟩, ⟨"z/w", "u3"⟩]).Sublist
      [⟨"x/y", "u1"⟩, ⟨"patlillis/r", "u2"⟩, ⟨"z/w", "u3"⟩] ∧
    ([⟨"x/y", "u1"⟩, ⟨"patlillis/r", "u2"⟩, ⟨"z/w", "u3"⟩] : List Fork).length ≤
      (filterForks "r" [⟨"x/y", "u1"⟩, ⟨"patlillis/r", "u2"⟩, ⟨"z/w", "u3"⟩]).length + 1 :=
  fork_filter_removes_at_most_one "r" [⟨"x/y", "u1"⟩, ⟨"patlillis/r", "u2"⟩, ⟨"z/w", "u3"⟩]
    (by decide)

/-- Claim C7: per-name try/catch in the batch runner isolates failures: with
r1 failing and r2 succeeding, exactly the r2 snapshot is collected and the
r1 error is logged. -/
theorem batch_runner_isolates_failures {α : Type} (agg : String → Except String α)
    (e : String) (v : α) (h1 : agg "r1" = Except.error e) (h2 : agg "r2" = Except.ok v) :
    runBatch agg ["r1", "r2"] = ([v], [e]) := by
  simp [runBatch, h1, h2]

/-- Witness for claim C7 at a concrete aggregation function. -/
theorem batch_runner_isolates_failures_witness :
    runBatch (fun n => if n == "r1" then Except.error "boom" else Except.ok (7 : Nat))
      ["r1", "r2"] = ([7], ["boom"]) :=
  batch_runner_isolates_failures _ "boom" 7 rfl rfl

/-- Claim C10: in the importRepo variant, an absent topics field makes the
guard repo.topics.length throw: the tail stops right after the settings
update, with no topic replacement and no Pages step, instead of skipping
the topic step via the defaulted list. -/
theorem missing_topics_guard_throws (projectName : String) (repo : RepoInfo)
    (pages : PagesInfo) (h : repo.topics = none) :
    importRepoTail projectName repo pages =
      ([Call.reposUpdateSettings "patlillis" (projectName ++ "-clone")
          repo.default_branch repo.description repo.homepage
          repo.has_issues repo.has_projects repo.has_wiki], true) := by
  simp [importRepoTail, h]

/-- Witness for claim C10 at a concrete repository. -/
theorem missing_topics_guard_throws_witness :
    (⟨"f", "u", "main", "d", "h", true, false, true, false, none⟩ : RepoInfo).topics = none ∧
    importRepoTail "p" ⟨"f", "u", "main", "d", "h", true, false, true, false, none⟩
        ⟨"gh-pages", none, none⟩ =
      ([Call.reposUpdateSettings "patlillis" ("p" ++ "-clone") "main" "d" "h"
          true false true], true) :=
  ⟨rfl, missing_topics_guard_throws "p" _ _ rfl⟩

/-- The action-flag sum computed by main equals the number of distinct
action flags present in the argument list. -/
theorem argSum_eq_countP (argv : List String) :
    argSum argv = actionArgNames.countP fun f => argv.contains f := by
  cases h1 : argv.contains "--import" <;>
  cases h2 : argv.contains "--revert-import" <;>
  cases h3 : argv.contains "--status" <;>
  cases h4 : argv.contains "--write-status-file" <;>
  cases h5 : argv.contains "--read-status-file" <;>
  simp only [argSum, actionArgNames, List.countP_cons, List.countP_nil,
    h1, h2, h3, h4, h5] <;>
  decide

/-- Claim C9: with zero present action flags, or with more than one, main
logs a usage error and stops: the token file is never read and no network
call is made. -/
theorem cli_requires_exactly_one_action (argv : List String)
    (h : (actionArgNames.countP fun f => argv.contains f) = 0 ∨
      1 < actionArgNames.countP fun f => argv.contains f) :
    (∃ msg, mainArgCheck argv = [MainEvent.logError msg]) ∧
    MainEvent.readTokenFile ∉ mainArgCheck argv ∧
    MainEvent.networkCall ∉ mainArgCheck argv := by
  have hs := argSum_eq_countP argv
  rcases h with h | h
  · have h0 : argSum argv = 0 := by omega
    rw [mainArgCheck, if_pos h0]
    exact ⟨⟨_, rfl⟩, by simp, by simp⟩
  · have hne : ¬ argSum argv = 0 := by omega
    have hgt : 1 < argSum argv := by omega
    rw [mainArgCheck, if_neg hne, if_pos hgt]
    exact ⟨⟨_, rfl⟩, by simp, by simp⟩

/-- Witness for claim C9 at a concrete argument list with two actions. -/
theorem cli_requires_exactly_one_action_witness :
    (∃ msg, mainArgCheck ["--import", "--status"] = [MainEvent.logError msg]) ∧
    MainEvent.readTokenFile ∉ mainArgCheck ["--import", "--status"] ∧
    MainEvent.networkCall ∉ mainArgCheck ["--import", "--status"] :=
  cli_requires_exactly_one_action ["--import", "--status"] (Or.inr (by decide))

/-- No call made by importProject before or during the poll loop is a
reconciliation call. -/
theorem importProjectPre_no_recon (projectName : String) (info : ProjectInfoLite)
    (n : Nat) : ∀ c ∈ importProjectPre projectName info n, isReconCall c = false := by
  intro c hc
  simp only [importProjectPre, List.mem_append, List.mem_cons, List.not_mem_nil,
    or_false, List.mem_replicate] at hc
  rcases hc with (rfl | rfl | rfl) | ⟨-, rfl⟩ <;> rfl

/-- Claim C1 (amended): in the importProject variant, a terminal status in
the error set makes the run return right after the poll loop: the run
issues exactly the pre-loop and polling calls, none of which is a
reconciliation call (no settings update, topic replacement, Pages creation
or set-private). -/
theorem importProject_error_aborts_reconciliation (projectName : String)
    (info : ProjectInfoLite) (startStatus : String) (polls : List String)
    (n : Nat) (final : String)
    (hpoll : pollLoop startStatus polls = some (n, final))
    (herr : IMPORT_ERROR_STATUSES.contains final = true) :
    importProjectRun projectName info startStatus polls =
      some (n, importProjectPre projectName info n) ∧
    ∀ c ∈ importProjectPre projectName info n, isReconCall c = false := by
  have hmem : final ∈ IMPORT_ERROR_STATUSES := by
    simpa using herr
  have hne : ¬ (final == IMPORT_COMPLETE_STATUS) = true := by
    simp only [IMPORT_ERROR_STATUSES, List.mem_cons, List.not_mem_nil, or_false] at hmem
    rcases hmem with rfl | rfl | rfl | rfl | rfl <;> decide
  refine ⟨?_, importProjectPre_no_recon projectName info n⟩
  rw [importProjectRun, hpoll]
  simp only [hne, herr, if_false, if_true, Bool.false_eq_true, ite_false, ite_true]

/-- Witness for the amended claim C1 at a run whose import starts in the
error state. -/
theorem importProject_error_aborts_reconciliation_witness :
    importProjectRun "p" ⟨⟨"f", "u", "main", "d", "h", true, true, true, false, some []⟩, []⟩
        "error" [] =
      some (0, importProjectPre "p"
        ⟨⟨"f", "u", "main", "d", "h", true, true, true, false, some []⟩, []⟩ 0) ∧
    ∀ c ∈ importProjectPre "p"
        ⟨⟨"f", "u", "main", "d", "h", true, true, true, false, some []⟩, []⟩ 0,
      isReconCall c = false :=
  importProject_error_aborts_reconciliation "p" _ "error" [] 0 "error" rfl (by decide)

/-- Claim C1 counterexample: in the importRepo variant the same error
terminal status does not abort: the settings update (a reconciliation call)
is still issued, so the claim is false for that variant of the import flow. -/
theorem importRepo_error_still_reconciles_cex :
    IMPORT_ERROR_STATUSES.contains "error" = true ∧
    (importRepoRun "p" ⟨"f", "u", "main", "d", "h", true, true, true, false, some []⟩
        ⟨"gh-pages", none, none⟩ "error" []).map
      (fun r => r.2.1.any isReconCall) = some true := by
  constructor <;> decide

/-- Claim C2 (amended): on the status sequence detecting, importing,
complete both variants perform exactly 2 sleep-then-repoll cycles and then
proceed to reconciliation; on detecting, error both perform exactly 1
cycle, after which the importProject variant issues no reconciliation call. -/
theorem import_poll_cycle_counts :
    ((importProjectRun "p" ⟨⟨"f", "u", "main", "d", "h", true, true, true, false, some []⟩, []⟩
        "detecting" ["importing", "complete"]).map
      (fun r => (r.1, r.2.any isReconCall)) = some (2, true)) ∧
    ((importProjectRun "p" ⟨⟨"f", "u", "main", "d", "h", true, true, true, false, some []⟩, []⟩
        "detecting" ["error"]).map
      (fun r => (r.1, r.2.any isReconCall)) = some (1, false)) ∧
    ((importRepoRun "p" ⟨"f", "u", "main", "d", "h", true, true, true, false, some []⟩
        ⟨"gh-pages", none, none⟩ "detecting" ["importing", "complete"]).map
      (fun r => (r.1, r.2.1.any isReconCall)) = some (2, true)) := by
  refine ⟨by decide, by decide, by decide⟩

/-- Claim C2 counterexample: on the status sequence detecting, error the
importRepo variant performs 1 cycle but still runs reconciliation, against
the claim that no reconciliation is run after an error. -/
theorem importRepo_detecting_error_runs_reconciliation_cex :
    (importRepoRun "p" ⟨"f", "u", "main", "d", "h", true, true, true, false, some []⟩
        ⟨"gh-pages", none, none⟩ "detecting" ["error"]).map
      (fun r => (r.1, r.2.1.any isReconCall)) = some (1, true) := by
  decide

/-- No call made by importRepo before or during the poll loop is a
replace-topics call. -/
theorem importRepoPre_no_replace (projectName : String) (repo : RepoInfo) (n : Nat) :
    (importRepoPre projectName repo n).filter isReplaceTopics = [] := by
  rw [List.filter_eq_nil_iff]
  intro c hc
  simp only [importRepoPre, List.mem_append, List.mem_cons, List.not_mem_nil,
    or_false, List.mem_replicate] at hc
  rcases hc with (rfl | rfl | rfl) | ⟨-, rfl⟩ <;> simp [isReplaceTopics]

/-- No call made by importProject before or during the poll loop is a
replace-topics call. -/
theorem importProjectPre_no_replace (projectName : String) (info : ProjectInfoLite)
    (n : Nat) : (importProjectPre projectName info n).filter isReplaceTopics = [] := by
  rw [List.filter_eq_nil_iff]
  intro c hc
  simp only [importProjectPre, List.mem_append, List.mem_cons, List.not_mem_nil,
    or_false, List.mem_replicate] at hc
  rcases hc with (rfl | rfl | rfl) | ⟨-, rfl⟩ <;> simp [isReplaceTopics]

/-- The Pages reconciliation calls contain no replace-topics call. -/
theorem importRepoPagesCalls_no_replace (projectName cloneName : String)
    (pages : PagesInfo) :
    (importRepoPagesCalls projectName cloneName pages).filter isReplaceTopics = [] := by
  rw [List.filter_eq_nil_iff]
  intro c hc
  simp only [importRepoPagesCalls, List.mem_append, List.mem_cons,
    List.not_mem_nil, or_false] at hc
  rcases hhc : pages.cname with _ | cn <;> rw [hhc] at hc <;>
    simp only [List.mem_cons, List.not_mem_nil, or_false] at hc
  · rcases hc with rfl | rfl <;> simp [isReplaceTopics]
  · rcases hc with (rfl | rfl) | rfl <;> simp [isReplaceTopics]

/-- Claim C4: in a run that reaches reconciliation, no replace-topics call
is issued when the source topic list is empty, and with topics a, b exactly
one replace-topics call is issued, carrying exactly a, b; this holds in
both the importRepo and the importProject variants. -/
theorem topics_reconciliation_exact (projectName : String) (repo : RepoInfo)
    (pages : PagesInfo) (info : ProjectInfoLite) (startStatus : String)
    (polls : List String) (n : Nat)
    (hpoll : pollLoop startStatus polls = some (n, "complete")) :
    (repo.topics = some [] →
      (importRepoRun projectName repo pages startStatus polls).map
        (fun r => r.2.1.filter isReplaceTopics) = some []) ∧
    (repo.topics = some ["a", "b"] →
      (importRepoRun projectName repo pages startStatus polls).map
        (fun r => r.2.1.filter isReplaceTopics) =
        some [Call.replaceAllTopics "patlillis" (projectName ++ "-clone") ["a", "b"]]) ∧
    (info.topics = [] →
      (importProjectRun projectName info startStatus polls).map
        (fun r => r.2.filter isReplaceTopics) = some []) ∧
    (info.topics = ["a", "b"] →
      (importProjectRun projectName info startStatus polls).map
        (fun r => r.2.filter isReplaceTopics) =
        some [Call.replaceAllTopics "patlillis" (projectName ++ "-clone") ["a", "b"]]) := by
  have hpre := importRepoPre_no_replace projectName repo n
  have hpre2 := importProjectPre_no_replace projectName info n
  have hpages := importRepoPagesCalls_no_replace projectName (projectName ++ "-clone") pages
  refine ⟨?_, ?_, ?_, ?_⟩
  · intro ht
    rw [importRepoRun, hpoll]
    simp only [importRepoTail, ht, Option.map_some, Option.some.injEq]
    cases hhp : repo.has_pages <;>
      simp [List.filter_append, hpre, hpages, isReplaceTopics]
  · intro ht
    rw [importRepoRun, hpoll]
    simp only [importRepoTail, ht, Option.map_some, Option.some.injEq]
    cases hhp : repo.has_pages <;>
      simp [List.filter_append, hpre, hpages, isReplaceTopics]
  · intro ht
    rw [importProjectRun, hpoll]
    simp only [IMPORT_COMPLETE_STATUS, beq_self_eq_true, if_true, ite_true,
      Option.map_some, Option.some.injEq]
    simp [importProjectTail, ht, List.filter_append, hpre2, isReplaceTopics]
  · intro ht
    rw [importProjectRun, hpoll]
    simp only [IMPORT_COMPLETE_STATUS, beq_self_eq_true, if_true, ite_true,
      Option.map_some, Option.some.injEq]
    simp [importProjectTail, ht, List.filter_append, hpre2, isReplaceTopics]

/-- Witness for claim C4 at a concrete run with topics a, b. -/
theorem topics_reconciliation_exact_witness :
    (importRepoRun "p" ⟨"f", "u", "main", "d", "h", true, true, true, false, some ["a", "b"]⟩
        ⟨"gh-pages", none, none⟩ "complete" []).map
      (fun r => r.2.1.filter isReplaceTopics) =
      some [Call.replaceAllTopics "patlillis" ("p" ++ "-clone") ["a", "b"]] :=
  (topics_reconciliation_exact "p"
    ⟨"f", "u", "main", "d", "h", true, true, true, false, some ["a", "b"]⟩
    ⟨"gh-pages", none, none⟩
    ⟨⟨"f", "u", "main", "d", "h", true, true, true, false, some ["a", "b"]⟩, ["a", "b"]⟩
    "complete" [] 0 rfl).2.1 rfl

/-- Lookup succeeds for any key that occurs among the first components. -/
theorem lookup_isSome_of_mem_fst {β : Type} (l : List (String × β)) (k : String)
    (h : k ∈ l.map Prod.fst) : (l.lookup k).isSome = true := by
  induction l with
  | nil => simp at h
  | cons p t ih =>
    cases p with
    | mk k0 v0 =>
      by_cases hk : (k == k0) = true
      · simp [List.lookup, hk]
      · have h2 : k ∈ t.map Prod.fst := by
          simp only [List.map_cons, List.mem_cons] at h
          rcases h with h | h
          · exact absurd (beq_iff_eq.mpr h) hk
          · exact h
        simp [List.lookup, hk, ih h2]

/-- Accumulator lemma for the fueled decimal rendering loop. -/
theorem toDigitsCore_append : ∀ (f n : Nat) (acc : List Char),
    Nat.toDigitsCore 10 f n acc = Nat.toDigitsCore 10 f n [] ++ acc := by
  intro f
  induction f with
  | zero => intro n acc; rfl
  | succ f ih =>
    intro n acc
    by_cases h0 : n / 10 = 0
    · simp [Nat.toDigitsCore, h0]
    · simp only [Nat.toDigitsCore, h0, if_false, ite_false]
      rw [ih (n / 10) [Nat.digitChar (n % 10)], ih (n / 10) (Nat.digitChar (n % 10) :: acc)]
      simp

theorem valOfDigits_append (l : List Char) (c : Char) :
    valOfDigits (l ++ [c]) = valOfDigits l * 10 + digitVal c := by
  simp [valOfDigits, List.foldl_append]

theorem digitVal_digitChar (r : Nat) (h : r < 10) : digitVal (Nat.digitChar r) = r := by
  interval_cases r <;> decide

/-- With enough fuel, reading the rendered digits back gives the number. -/
theorem valOfDigits_toDigitsCore : ∀ (f n : Nat), n < f →
    valOfDigits (Nat.toDigitsCore 10 f n []) = n := by
  intro f
  induction f with
  | zero => intro n h; omega
  | succ f ih =>
    intro n h
    by_cases h0 : n / 10 = 0
    · have h10 : n < 10 := by omega
      simp [Nat.toDigitsCore, h0, valOfDigits, digitVal_digitChar (n % 10) (by omega)]
      omega
    · simp only [Nat.toDigitsCore, h0, if_false, ite_false]
      rw [toDigitsCore_append, valOfDigits_append]
      rw [ih (n / 10) (by omega)]
      rw [digitVal_digitChar (n % 10) (by omega)]
      omega

/-- The decimal rendering of natural numbers is injective. -/
theorem natRepr_injective (m n : Nat) (h : Nat.repr m = Nat.repr n) : m = n := by
  have hd : Nat.toDigitsCore 10 (m + 1) m [] = Nat.toDigitsCore 10 (n + 1) n [] :=
    congrArg String.data h
  have hm := valOfDigits_toDigitsCore (m + 1) m (Nat.lt_succ_self m)
  have hn := valOfDigits_toDigitsCore (n + 1) n (Nat.lt_succ_self n)
  rw [← hm, ← hn, hd]

/-- Two distinct issue numbers always render to distinct string keys. -/
theorem toString_nat_injective (m n : Nat) (h : toString m = toString n) : m = n :=
  natRepr_injective m n h

/-- General zero-comment lookup: in any snapshot, mixed or not, the entry
found for an issue with an empty comment list is the empty list; a key
earlier in the object can only collide if it renders the same issue number,
hence carries the same (empty) comment list. -/
theorem lookup_buildIssueComments_eq_nil (issues : List Issue)
    (listComments : Nat → List Comment) (i : Issue) (hi : i ∈ issues)
    (hz : listComments i.number = []) :
    (buildIssueComments issues listComments).lookup (toString i.number) = some [] := by
  revert hi
  induction issues with
  | nil => intro hi; cases hi
  | cons x xs ih =>
    intro hi
    by_cases hk : (toString i.number == toString x.number) = true
    · have hkey : toString i.number = toString x.number := beq_iff_eq.mp hk
      have hnum : i.number = x.number := toString_nat_injective _ _ hkey
      simp only [buildIssueComments, List.map_cons, List.lookup, hk]
      rw [← hnum, hz]
    · rw [Bool.not_eq_true] at hk
      rcases List.mem_cons.mp hi with rfl | hmem
      · simp at hk
      · simp only [buildIssueComments, List.map_cons, List.lookup, hk]
        exact ih hmem

/-- Claim C3 counterexample: the claimed equivalence between key presence in
issueComments and the issue having at least one comment is false: an issue
with zero comments still gets a key (mapped to the empty list). -/
theorem issueComments_key_for_zero_comment_issue_cex :
    ¬ (∀ (issues : List Issue) (listComments : Nat → List Comment) (i : Issue),
        i ∈ issues →
        (((buildIssueComments issues listComments).lookup (toString i.number)).isSome
          ↔ listComments i.number ≠ [])) := by
  intro h
  have h2 := h [⟨1, "t", "u", "a", none, "open"⟩] (fun _ => [])
    ⟨1, "t", "u", "a", none, "open"⟩ (List.mem_singleton.mpr rfl)
  revert h2
  decide

/-- Claim C3 (amended): issueComments gets an entry for every issue in the
list, whatever its comment count: the keys are exactly the issue numbers in
order, lookup succeeds for each issue, and any issue whose comment list is
empty, also inside a mixed snapshot, yields the empty sequence on the
defaulted lookup rather than an error. -/
theorem issueComments_key_for_every_issue (issues : List Issue)
    (listComments : Nat → List Comment) :
    ((buildIssueComments issues listComments).map Prod.fst
      = issues.map fun i => toString i.number) ∧
    (∀ i ∈ issues,
      ((buildIssueComments issues listComments).lookup (toString i.number)).isSome = true) ∧
    (∀ i ∈ issues, listComments i.number = [] →
      lookupIssueComments (buildIssueComments issues listComments) (toString i.number) = []) := by
  have hkeys : (buildIssueComments issues listComments).map Prod.fst
      = issues.map fun i => toString i.number := by
    simp [buildIssueComments]
  refine ⟨hkeys, ?_, ?_⟩
  · intro i hi
    apply lookup_isSome_of_mem_fst
    rw [hkeys]
    exact List.mem_map_of_mem _ hi
  · intro i hi hz
    unfold lookupIssueComments
    rw [lookup_buildIssueComments_eq_nil issues listComments i hi hz]
    rfl

/-- Witness for the amended claim C3 at a mixed snapshot: issue 1 has one
comment, issue 2 has none, and the lookup for issue 2 yields the empty
sequence. -/
theorem issueComments_key_for_every_issue_witness :
    lookupIssueComments
      (buildIssueComments
        [⟨1, "t1", "u1", "a", none, "open"⟩, ⟨2, "t2", "u2", "a", none, "open"⟩]
        fun n => if n == 1 then [⟨"a", "hi"⟩] else [])
      (toString (2 : Nat)) = [] :=
  (issueComments_key_for_every_issue
    [⟨1, "t1", "u1", "a", none, "open"⟩, ⟨2, "t2", "u2", "a", none, "open"⟩]
    fun n => if n == 1 then [⟨"a", "hi"⟩] else []).2.2
    ⟨2, "t2", "u2", "a", none, "open"⟩ (by decide) (by decide)

theorem decodeOptStr_encode (s : Option String) : decodeOptStr (encodeOptStr s) = some s := by
  cases s <;> rfl

theorem decodeStr_encode (s : String) : decodeStr (Json.str s) = some s := rfl

theorem decodeAccount_encode (a : Account) : decodeAccount (encodeAccount a) = some a := by
  cases a
  rfl

theorem decodeFork_encode (f : Fork) : decodeFork (encodeFork f) = some f := by
  cases f
  rfl

theorem decodeComment_encode (c : Comment) : decodeComment (encodeComment c) = some c := by
  cases c
  rfl

theorem decodeIssue_encode (i : Issue) : decodeIssue (encodeIssue i) = some i := by
  cases i with
  | mk n t h u b s => cases b <;> rfl

theorem decodeRepoMeta_encode (r : RepoMeta) :
    decodeRepoMeta (encodeRepoMeta r) = some r := by
  cases r with
  | mk fn d h db fk hi hp hw hg => cases d <;> cases h <;> rfl

theorem decodePagesRec_encode (p : PagesRec) :
    decodePagesRec (encodePagesRec p) = some p := by
  cases p with
  | mk h c sb sd => cases c <;> cases sd <;> rfl

theorem decodeOptPages_encode (p : Option PagesRec) :
    decodeOptPages (encodeOptPages p) = some p := by
  cases p with
  | none => rfl
  | some q => cases q with
    | mk h c sb sd => cases c <;> cases sd <;> rfl

theorem mapMOpt_map {β α : Type} (enc : α → β) (dec : β → Option α)
    (h : ∀ x, dec (enc x) = some x) (l : List α) :
    mapMOpt dec (l.map enc) = some l := by
  induction l with
  | nil => rfl
  | cons x xs ih => simp [mapMOpt, h x, ih]

theorem decodeCommentEntry_encode (e : String × List Comment) :
    decodeCommentEntry (e.1, Json.arr (e.2.map encodeComment)) = some e := by
  cases e with
  | mk k cs =>
    simp [decodeCommentEntry, mapMOpt_map encodeComment decodeComment decodeComment_encode]

theorem decodeProjectInfo_encode (p : ProjectInfo) :
    decodeProjectInfo (encodeProjectInfo p) = some p := by
  cases p with
  | mk repo stars watchers topics forks issues comments pages =>
    simp only [encodeProjectInfo, decodeProjectInfo,
      decodeRepoMeta_encode,
      mapMOpt_map encodeAccount decodeAccount decodeAccount_encode,
      mapMOpt_map Json.str decodeStr decodeStr_encode,
      mapMOpt_map encodeFork decodeFork decodeFork_encode,
      mapMOpt_map encodeIssue decodeIssue decodeIssue_encode,
      mapMOpt_map (fun e => (e.1, Json.arr (e.2.map encodeComment)))
        decodeCommentEntry decodeCommentEntry_encode,
      decodeOptPages_encode]

/-- Claim C8: writing a ProjectInfo list as the snapshot JSON document with
a projects array and reading it back yields a structurally equal list, with
the projects ordering preserved. -/
theorem snapshot_roundtrip (ps : List ProjectInfo) :
    decodeSnapshotFile (encodeSnapshotFile ps) = some ps := by
  simp only [encodeSnapshotFile, decodeSnapshotFile,
    mapMOpt_map encodeProjectInfo decodeProjectInfo decodeProjectInfo_encode]

end ImportOldProjects
